import Mathlib

/-!
# Verification of the `/validate-sql` SQL clause classifier

Shallow embedding of `validate_sql` from `fastapi-backend/app.py` (lines
57-191).  The query text is modelled as `List Char`; Python's `re.search`
calls are modelled by a small backtracking matcher (`matchToks` / `reSearch`)
over token lists that transcribe the exact regular expressions appearing in
the source, with Python's semantics: leftmost starting position, greedy
(`+`, `*`) and lazy (`*?`) quantifier preference, ordered alternation, `.`
not matching a newline unless `re.DOTALL` is given, and `$` matching at the
end of the text or just before a final newline.

Character classes (`\s`, `\w`) and `str.lower` / `str.strip` are modelled at
ASCII granularity, matching Python's behaviour on all ASCII inputs.
-/

namespace SqlVal

/-- The single-quote character `'` (ASCII 39), used in the source's messages,
in the comparison value class `['\w]` and in `strip("'")`. -/
def sq : Char := Char.ofNat 39

/-- Python `str.lower` on one character (ASCII range, as in `app.py`'s
`query.lower()` on ASCII queries). -/
def pyCharLower (c : Char) : Char :=
  if 65 ≤ c.toNat ∧ c.toNat ≤ 90 then Char.ofNat (c.toNat + 32) else c

/-- Python `str.lower`. -/
def pyLower (s : List Char) : List Char := s.map pyCharLower

/-- Python `str.isspace` / regex `\s` class (ASCII): space, tab, newline,
carriage return, vertical tab, form feed. -/
def isPySpace (c : Char) : Bool :=
  c = ' ' || c = '\t' || c = '\n' || c = '\r' || c = Char.ofNat 11 || c = Char.ofNat 12

/-- Regex `\w` class (ASCII): letters, digits, underscore. -/
def isWordChar (c : Char) : Bool :=
  ('a' ≤ c && c ≤ 'z') || ('A' ≤ c && c ≤ 'Z') || ('0' ≤ c && c ≤ '9') || c = '_'

/-- Regex `.` without `re.DOTALL`: any character except newline. -/
def notNL (c : Char) : Bool := !(c = '\n')

/-- Regex `.` with `re.DOTALL`: any character. -/
def anyChar (_ : Char) : Bool := true

/-- Regex `\S`: any non-whitespace character. -/
def nonSpace (c : Char) : Bool := !(isPySpace c)

/-- Python `str.strip()` (no argument): drop leading and trailing whitespace. -/
def pyStrip (s : List Char) : List Char :=
  ((s.dropWhile isPySpace).reverse.dropWhile isPySpace).reverse

/-- Python `str.strip("'")`: drop leading and trailing single quotes
(source line 166, `comparison_match.group(3).strip("'")`). -/
def stripQuotes (s : List Char) : List Char :=
  ((s.dropWhile (fun c => c = sq)).reverse.dropWhile (fun c => c = sq)).reverse

/-- Python `"a,b".split(',')`: split on a separator character; always returns
at least one (possibly empty) piece, like Python's `str.split (sep)`. -/
def splitChar (sep : Char) : List Char → List (List Char)
  | [] => [[]]
  | c :: cs =>
    if c = sep then [] :: splitChar sep cs
    else
      match splitChar sep cs with
      | h :: t => (c :: h) :: t
      | [] => [[c]]

/-- Python `query.split(';')[0]`: the text before the first semicolon
(the whole text when there is none) — source line 109. -/
def takeBeforeSemi (q : List Char) : List Char := q.takeWhile (fun c => !(c = ';'))

/-- Python `', '.join(...)` over a list of strings. -/
def joinCS : List (List Char) → List Char
  | [] => []
  | [x] => x
  | x :: xs => x ++ ", ".data ++ joinCS xs

/-! ## The regex engine

A pattern is a sequence of tokens.  Each token transcribes one regex
construct used in `app.py`; the candidate list `tokCands` enumerates, in
Python's backtracking preference order, the ways a token can consume a
prefix of the remaining text (with the optional capture it records and the
rest of the text). -/

/-- One regex construct of the patterns in `app.py`:
literal text, a single class character, greedy `+`, greedy `*`, lazy `*?`
(`g` is the capture-group index when the construct is parenthesised),
ordered alternation of literals, and Python's `$`. -/
inductive Tok where
  | lit (l : List Char)
  | one (p : Char → Bool)
  | plus (p : Char → Bool) (g : Option Nat)
  | star (p : Char → Bool)
  | starL (p : Char → Bool) (g : Option Nat)
  | alts (ss : List (List Char)) (g : Option Nat)
  | eol

/-- Captured groups of one match: pairs of group index and captured text. -/
abbrev Caps := List (Nat × List Char)

/-- The ways token `t` can consume a prefix of `s`, in backtracking
preference order: each candidate is the capture recorded (if the token is a
group) and the remaining text. -/
def tokCands : Tok → List Char → List (Option (Nat × List Char) × List Char)
  | .lit l, s => if l.isPrefixOf s then [(none, s.drop l.length)] else []
  | .one p, s =>
    match s with
    | [] => []
    | c :: r => if p c then [(none, r)] else []
  | .plus p g, s =>
    let m := s.takeWhile p
    (List.range m.length).reverse.map (fun j =>
      (g.map (fun i => (i, s.take (j+1))), s.drop (j+1)))
  | .star p, s =>
    let m := s.takeWhile p
    (List.range (m.length+1)).reverse.map (fun k => (none, s.drop k))
  | .starL p g, s =>
    let m := s.takeWhile p
    (List.range (m.length+1)).map (fun k =>
      (g.map (fun i => (i, s.take k)), s.drop k))
  | .alts ss g, s =>
    ss.filterMap (fun l =>
      if l.isPrefixOf s then some (g.map (fun i => (i, l)), s.drop l.length) else none)
  | .eol, s => if s = [] ∨ s = ['\n'] then [(none, s)] else []

/-- Prepend an optional capture. -/
def consCap : Option (Nat × List Char) → Caps → Caps
  | some c, caps => c :: caps
  | none, caps => caps

/-- Match a token sequence against a prefix of `s` (anchored at the start of
`s`), returning the captures and the remaining text of the preferred
(Python backtracking order) match. -/
def matchToks : List Tok → List Char → Option (Caps × List Char)
  | [], s => some ([], s)
  | t :: ts, s =>
    (tokCands t s).findSome? (fun cr =>
      (matchToks ts cr.2).map (fun res => (consCap cr.1 res.1, res.2)))

/-- Python `re.search`: try each starting position left to right. -/
def reSearch (toks : List Tok) : List Char → Option Caps
  | [] => (matchToks toks []).map (fun r => r.1)
  | c :: rest =>
    match matchToks toks (c :: rest) with
    | some r => some r.1
    | none => reSearch toks rest

/-- Boolean form of `reSearch` (the truthiness test `if re.search(...)`). -/
def reTest (toks : List Tok) (s : List Char) : Bool := (reSearch toks s).isSome

/-- `match.group(i)` for a match known to exist; group `i` is present in
every pattern of `app.py` that is queried for it. -/
def getCap (caps : Caps) (i : Nat) : List Char :=
  match caps.find? (fun pr => pr.1 == i) with
  | some pr => pr.2
  | none => []

/-! ## The patterns of `app.py`, token by token -/

/-- `select\s+.+\s+from\s+.+` (line 77; no `re.DOTALL`, so `.` excludes newline). -/
def structToks : List Tok :=
  [.lit "select".data, .plus isPySpace none, .plus notNL none,
   .plus isPySpace none, .lit "from".data, .plus isPySpace none, .plus notNL none]

/-- `where\s+and` (line 82). -/
def whereAndToks : List Tok := [.lit "where".data, .plus isPySpace none, .lit "and".data]

/-- `where\s+or` (line 83). -/
def whereOrToks : List Tok := [.lit "where".data, .plus isPySpace none, .lit "or".data]

/-- `from\s+from` (line 84). -/
def fromFromToks : List Tok := [.lit "from".data, .plus isPySpace none, .lit "from".data]

/-- `select\s+select` (line 85). -/
def selectSelectToks : List Tok :=
  [.lit "select".data, .plus isPySpace none, .lit "select".data]

/-- `where\s+where` (line 86). -/
def whereWhereToks : List Tok := [.lit "where".data, .plus isPySpace none, .lit "where".data]

/-- `from\s*$` (line 87). -/
def fromEndToks : List Tok := [.lit "from".data, .star isPySpace, .eol]

/-- `;.*\S` (line 88; no `re.DOTALL`, so `.*` stays on one line). -/
def semiToks : List Tok := [.lit [';'], .star notNL, .one nonSpace]

/-- `select\s+(.*?)\s+from` with `re.DOTALL` (line 96). -/
def selColsToks : List Tok :=
  [.lit "select".data, .plus isPySpace none, .starL anyChar (some 1),
   .plus isPySpace none, .lit "from".data]

/-- `from\s+(\w+)` (line 105). -/
def tableToks : List Tok := [.lit "from".data, .plus isPySpace none, .plus isWordChar (some 1)]

/-- `(\w+)\s+is\s+null` (line 112). -/
def nullToks : List Tok :=
  [.plus isWordChar (some 1), .plus isPySpace none, .lit "is".data,
   .plus isPySpace none, .lit "null".data]

/-- `(\w+)\s+is\s+not\s+null` (line 127). -/
def notNullToks : List Tok :=
  [.plus isWordChar (some 1), .plus isPySpace none, .lit "is".data,
   .plus isPySpace none, .lit "not".data, .plus isPySpace none, .lit "null".data]

/-- `(\w+)\s+in\s+\(\s*(.*?)\s*\)` (line 142; no `re.DOTALL`). -/
def inToks : List Tok :=
  [.plus isWordChar (some 1), .plus isPySpace none, .lit "in".data,
   .plus isPySpace none, .lit ['('], .star isPySpace, .starL notNL (some 2),
   .star isPySpace, .lit [')']]

/-- The value class `['\w]` of the comparison pattern. -/
def isQuoteOrWord (c : Char) : Bool := c = sq || isWordChar c

/-- `(\w+)\s*(=|!=|>|<|>=|<=)\s*(['\w]+)` (line 162); the alternation keeps
the source's order (Python tries alternatives left to right). -/
def cmpToks : List Tok :=
  [.plus isWordChar (some 1), .star isPySpace,
   .alts [['='], ['!','='], ['>'], ['<'], ['>','='], ['<','=']] (some 2),
   .star isPySpace, .plus isQuoteOrWord (some 3)]

/-! ## `re.findall(r"'([^']*)'|([^',\s]+)", values)` (line 146) -/

/-- Class `[^',\s]` of the second alternative. -/
def isBareValChar (c : Char) : Bool := !(c = sq || c = ',' || isPySpace c)

/-- First alternative `'([^']*)'`: a quoted literal at the head of `s`;
returns the body and the rest. -/
def quotedVal (s : List Char) : Option (List Char × List Char) :=
  match s with
  | [] => none
  | c :: rest =>
    if c = sq then
      match rest.drop (rest.takeWhile (fun d => !(d = sq))).length with
      | d :: rest2 =>
        if d = sq then some (rest.takeWhile (fun d => !(d = sq)), rest2) else none
      | [] => none
    else none

/-- `re.findall` scan: at each position try the quoted alternative, then the
bare-token alternative, else advance one character; each match yields the
pair of its two groups (the unmatched group is empty, as Python reports `''`). -/
def findallVals : Nat → List Char → List (List Char × List Char)
  | 0, _ => []
  | _, [] => []
  | fuel+1, c :: rest =>
    match quotedVal (c :: rest) with
    | some (g1, rest2) => (g1, []) :: findallVals fuel rest2
    | none =>
      if (c :: rest).takeWhile isBareValChar = [] then findallVals fuel rest
      else ([], (c :: rest).takeWhile isBareValChar) ::
        findallVals fuel ((c :: rest).drop ((c :: rest).takeWhile isBareValChar).length)

/-- Lines 146-147: findall over the captured IN-list text, then
`v[0] if v[0] else v[1]` for each match. -/
def parseInValues (vals : List Char) : List (List Char) :=
  (findallVals vals.length vals).map (fun pr => if pr.1 ≠ [] then pr.1 else pr.2)

/-! ## Result data model

The endpoint returns a JSON object; rejections carry `valid: False` and a
`message`, acceptances carry the extracted fields.  Keys absent from a
particular return statement (e.g. no `operation` in the fall-through result
of lines 181-188) are modelled as `none`. -/

structure AcceptedInfo where
  message : List Char
  operation : Option (List Char)
  column : Option (List Char)
  values : Option (List (List Char))
  operator : Option (List Char)
  value : Option (List Char)
  selected_columns : List (List Char)
  table : List Char
  query_type : List Char
  rows_affected : List Char
deriving DecidableEq, Repr

inductive SqlResult where
  | rejected (message : List Char)
  | accepted (info : AcceptedInfo)
deriving DecidableEq, Repr

/-! ## Rejection messages (exact source strings) -/

def msgTooShort : List Char := "Query is too short".data
def msgOnlySelect : List Char := "Only SELECT queries are allowed".data
def msgUnbalanced : List Char := "Unbalanced parentheses in query".data
def msgStructure : List Char := "Query must include both SELECT and FROM clauses".data
def msgWhereAnd : List Char :=
  "Found ".data ++ [sq] ++ "WHERE AND".data ++ [sq] ++ " - remove the extra AND".data
def msgWhereOr : List Char :=
  "Found ".data ++ [sq] ++ "WHERE OR".data ++ [sq] ++ " - remove the extra OR".data
def msgDupFrom : List Char := "Duplicate FROM clause".data
def msgDupSelect : List Char := "Duplicate SELECT clause".data
def msgDupWhere : List Char := "Duplicate WHERE clause".data
def msgFromEnd : List Char := "FROM clause cannot be at the end without a table name".data
def msgExtraSemi : List Char := "Extra characters after semicolon".data

/-- The `common_errors` table of lines 81-89, in source order. -/
def commonErrorList : List (List Tok × List Char) :=
  [(whereAndToks, msgWhereAnd), (whereOrToks, msgWhereOr), (fromFromToks, msgDupFrom),
   (selectSelectToks, msgDupSelect), (whereWhereToks, msgDupWhere),
   (fromEndToks, msgFromEnd), (semiToks, msgExtraSemi)]

/-- The scan of lines 91-93: first matching pattern yields its message. -/
def findCommonError (ql : List Char) : Option (List Char) :=
  commonErrorList.findSome? (fun pr => if reTest pr.1 ql then some pr.2 else none)

/-- Lines 96-102: selected columns from `select\s+(.*?)\s+from` on the
lowered query; comma-split, each `strip()`ed; replaced by
`["all columns"]` when `"*" in selected_columns`. -/
def extractSelectedColumns (ql : List Char) : List (List Char) :=
  match reSearch selColsToks ql with
  | some caps =>
    if ((splitChar ',' (getCap caps 1)).map pyStrip).contains ['*']
      then ["all columns".data]
      else (splitChar ',' (getCap caps 1)).map pyStrip
  | none => []

/-- Lines 105-106: table name from `from\s+(\w+)` on the lowered query,
`"unknown"` when absent. -/
def extractTable (ql : List Char) : List Char :=
  match reSearch tableToks ql with
  | some caps => getCap caps 1
  | none => "unknown".data

/-- The acceptance record of lines 115-124 (`operation = "null_check"`). -/
def nullInfo (sc : List (List Char)) (tn col : List Char) : AcceptedInfo :=
  { message := "Query would return ".data ++ joinCS sc ++ " from ".data ++ tn ++
      " where ".data ++ col ++ " IS NULL".data
    operation := some "null_check".data
    column := some col
    values := none, operator := none, value := none
    selected_columns := sc
    table := tn
    query_type := "filter".data
    rows_affected := "rows where column value is NULL".data }

/-- The acceptance record of lines 130-139 (`operation = "not_null_check"`). -/
def notNullInfo (sc : List (List Char)) (tn col : List Char) : AcceptedInfo :=
  { message := "Query would return ".data ++ joinCS sc ++ " from ".data ++ tn ++
      " where ".data ++ col ++ " IS NOT NULL".data
    operation := some "not_null_check".data
    column := some col
    values := none, operator := none, value := none
    selected_columns := sc
    table := tn
    query_type := "filter".data
    rows_affected := "rows where column value is not NULL".data }

/-- The acceptance record of lines 149-159 (`operation = "in_clause"`). -/
def inInfo (sc : List (List Char)) (tn col : List Char) (parsed : List (List Char)) :
    AcceptedInfo :=
  { message := "Query would return ".data ++ joinCS sc ++ " from ".data ++ tn ++
      " where ".data ++ col ++ " is in (".data ++ joinCS parsed ++ [')']
    operation := some "in_clause".data
    column := some col
    values := some parsed
    operator := none, value := none
    selected_columns := sc
    table := tn
    query_type := "filter".data
    rows_affected := "rows where ".data ++ col ++
      " matches any of these values: ".data ++ joinCS parsed }

/-- The acceptance record of lines 168-179 (`operation = "comparison"`). -/
def cmpInfo (sc : List (List Char)) (tn col op v : List Char) : AcceptedInfo :=
  { message := "Query would return ".data ++ joinCS sc ++ " from ".data ++ tn ++
      " where ".data ++ col ++ [' '] ++ op ++ [' '] ++ v
    operation := some "comparison".data
    column := some col
    values := none
    operator := some op
    value := some v
    selected_columns := sc
    table := tn
    query_type := "filter".data
    rows_affected := "rows where ".data ++ col ++ [' '] ++ op ++ [' '] ++ v }

/-- The fall-through acceptance record of lines 181-188 (no `operation`,
`column`, `values`, `operator` or `value` key in the returned dict). -/
def plainInfo (sc : List (List Char)) (tn : List Char) : AcceptedInfo :=
  { message := "Query would select ".data ++ joinCS sc ++ " from ".data ++ tn
    operation := none, column := none, values := none
    operator := none, value := none
    selected_columns := sc
    table := tn
    query_type := "select".data
    rows_affected := "all rows in table".data }

/-- Lines 111-188: the predicate-classification cascade, run on the lowered
semicolon-truncated text (`clean_query.lower()`), with the already-extracted
selected columns `sc` and table name `tn`; the four patterns are tried in
the fixed source order and the first match wins. -/
def predPart (sc : List (List Char)) (tn cleanL : List Char) : SqlResult :=
  match reSearch nullToks cleanL with
  | some caps => .accepted (nullInfo sc tn (getCap caps 1))
  | none =>
    match reSearch notNullToks cleanL with
    | some caps => .accepted (notNullInfo sc tn (getCap caps 1))
    | none =>
      match reSearch inToks cleanL with
      | some caps =>
        .accepted (inInfo sc tn (getCap caps 1) (parseInValues (getCap caps 2)))
      | none =>
        match reSearch cmpToks cleanL with
        | some caps =>
          .accepted
            (cmpInfo sc tn (getCap caps 1) (getCap caps 2) (stripQuotes (getCap caps 3)))
        | none => .accepted (plainInfo sc tn)

/-- The body of the `try` block, lines 62-188.  Every operation of the body
is total in this embedding (each `.group(i)` call in the source is guarded
by a successful match whose pattern contains group `i`), so the body is a
pure function; the `except` handler is modelled in `validate_sql` below. -/
def classifyBody (query : List Char) : SqlResult :=
  if query = [] ∨ query.length < 5 then .rejected msgTooShort
  else if ¬ "select".data.isPrefixOf (pyStrip (pyLower query)) then .rejected msgOnlySelect
  else if query.count '(' ≠ query.count ')' then .rejected msgUnbalanced
  else if ¬ reTest structToks (pyLower query) then .rejected msgStructure
  else
    match findCommonError (pyLower query) with
    | some msg => .rejected msg
    | none =>
      predPart (extractSelectedColumns (pyLower query)) (extractTable (pyLower query))
        (pyLower (pyStrip (takeBeforeSemi query)))

/-- The `try` body as a fallible computation (lines 60-188): in this
embedding no operation of the body can fault, so it always returns `ok`. -/
def classifyExc (query : List Char) : Except (List Char) SqlResult :=
  Except.ok (classifyBody query)

/-- `validate_sql` (lines 57-191): the body wrapped in the `try/except` of
lines 60 and 189-191, which converts an internal fault `e` into the
rejection `"Error: " + str(e)`. -/
def validate_sql (query : List Char) : SqlResult :=
  match classifyExc query with
  | .ok r => r
  | .error e => .rejected ("Error: ".data ++ e)

/-! ## List helper lemmas -/

theorem isPrefixOf_ex {l s : List Char} : l.isPrefixOf s = true ↔ ∃ t, s = l ++ t := by
  constructor
  · intro h
    induction l generalizing s with
    | nil => exact ⟨s, rfl⟩
    | cons a as ih =>
      cases s with
      | nil => simp [List.isPrefixOf] at h
      | cons b bs =>
        simp only [List.isPrefixOf, Bool.and_eq_true, beq_iff_eq] at h
        obtain ⟨rfl, h2⟩ := h
        obtain ⟨t, rfl⟩ := ih h2
        exact ⟨t, rfl⟩
  · rintro ⟨t, rfl⟩
    induction l with
    | nil => simp [List.isPrefixOf]
    | cons a as ih => simp [List.isPrefixOf, ih]

theorem takeWhile_append_all {p : Char → Bool} {w : List Char} (r : List Char)
    (h : ∀ c ∈ w, p c = true) : (w ++ r).takeWhile p = w ++ r.takeWhile p := by
  induction w with
  | nil => simp
  | cons a as ih =>
    have ha := h a (by simp)
    simp only [List.cons_append, List.takeWhile_cons, ha, if_true, List.cons.injEq, true_and]
    exact ih (fun c hc => h c (by simp [hc]))

theorem length_takeWhile_le' (p : Char → Bool) (s : List Char) :
    (s.takeWhile p).length ≤ s.length := by
  have h := List.takeWhile_append_dropWhile (p := p) (l := s)
  calc (s.takeWhile p).length ≤ (s.takeWhile p).length + (s.dropWhile p).length :=
        Nat.le_add_right _ _
    _ = s.length := by rw [← List.length_append, h]

theorem mem_of_mem_takeWhile {p : Char → Bool} {s : List Char} {c : Char}
    (h : c ∈ s.takeWhile p) : c ∈ s := by
  have hs := List.takeWhile_append_dropWhile (p := p) (l := s)
  rw [← hs]
  exact List.mem_append_left _ h

theorem findSome?_isSome_of {α β : Type} {f : α → Option β} {l : List α} {x : α}
    (hx : x ∈ l) (hf : (f x).isSome = true) : (l.findSome? f).isSome = true := by
  induction l with
  | nil => cases hx
  | cons a as ih =>
    rw [List.findSome?_cons]
    cases hfa : f a with
    | some b => simp
    | none =>
      rcases List.mem_cons.mp hx with rfl | hx'
      · rw [hfa] at hf; simp at hf
      · exact ih hx'

/-! ## Declarative semantics of the matcher

`TokOK t w rest cap` states that token `t` can consume the text `w`
(leaving `rest` as the remaining text) while recording the capture `cap`;
`Matches toks s caps rest` states that the token sequence `toks` matches a
prefix of `s` with captures `caps`, leaving `rest`.  The matcher is proved
sound and complete for these semantics (completeness in the sense that it
finds some match whenever one exists — which match it finds is fixed by its
backtracking preference order). -/

def TokOK : Tok → List Char → List Char → Option (Nat × List Char) → Prop
  | .lit l, w, _, cap => w = l ∧ cap = none
  | .one p, w, _, cap => (∃ c, w = [c] ∧ p c = true) ∧ cap = none
  | .plus p g, w, _, cap =>
    w ≠ [] ∧ (∀ c ∈ w, p c = true) ∧ cap = g.map (fun i => (i, w))
  | .star p, w, _, cap => (∀ c ∈ w, p c = true) ∧ cap = none
  | .starL p g, w, _, cap => (∀ c ∈ w, p c = true) ∧ cap = g.map (fun i => (i, w))
  | .alts ss g, w, _, cap => w ∈ ss ∧ cap = g.map (fun i => (i, w))
  | .eol, w, rest, cap => w = [] ∧ (rest = [] ∨ rest = ['\n']) ∧ cap = none

inductive Matches : List Tok → List Char → Caps → List Char → Prop where
  | nil (s : List Char) : Matches [] s [] s
  | cons {t : Tok} {ts : List Tok} {w rest rest' : List Char} {caps : Caps}
      {cap : Option (Nat × List Char)} :
      TokOK t w rest cap → Matches ts rest caps rest' →
      Matches (t :: ts) (w ++ rest) (consCap cap caps) rest'

theorem tokCands_sound {t : Tok} {s : List Char}
    {cr : Option (Nat × List Char) × List Char} (hm : cr ∈ tokCands t s) :
    ∃ w, s = w ++ cr.2 ∧ TokOK t w cr.2 cr.1 := by
  cases t with
  | lit l =>
    simp only [tokCands] at hm
    split at hm
    · rename_i hp
      simp only [List.mem_singleton] at hm
      obtain ⟨t', rfl⟩ := isPrefixOf_ex.mp hp
      subst hm
      exact ⟨l, by simp [List.drop_left], rfl, rfl⟩
    · simp at hm
  | one p =>
    cases s with
    | nil => simp [tokCands] at hm
    | cons c r =>
      simp only [tokCands] at hm
      split at hm
      · rename_i hc
        simp only [List.mem_singleton] at hm
        subst hm
        exact ⟨[c], rfl, ⟨c, rfl, hc⟩, rfl⟩
      · simp at hm
  | plus p g =>
    simp only [tokCands, List.mem_map] at hm
    obtain ⟨j, hj, rfl⟩ := hm
    have hjlt : j < (s.takeWhile p).length := List.mem_range.mp (List.mem_reverse.mp hj)
    have hk : j + 1 ≤ (s.takeWhile p).length := hjlt
    refine ⟨s.take (j+1), (List.take_append_drop _ s).symm, ?_, ?_, rfl⟩
    · have hlen : (s.take (j+1)).length = j + 1 := by
        rw [List.length_take]
        have := length_takeWhile_le' p s
        omega
      intro hnil
      rw [hnil] at hlen
      simp at hlen
    · intro c hc
      have hc' : c ∈ (s.takeWhile p).take (j+1) := by
        have hs : s = s.takeWhile p ++ s.dropWhile p :=
          (List.takeWhile_append_dropWhile (p := p) (l := s)).symm
        rw [hs, List.take_append_eq_append_take] at hc
        have h0 : j + 1 - (s.takeWhile p).length = 0 := by omega
        rw [h0] at hc
        simpa using hc
      exact List.mem_takeWhile_imp (List.take_subset _ _ hc')
  | star p =>
    simp only [tokCands, List.mem_map] at hm
    obtain ⟨k, hk, rfl⟩ := hm
    have hklt : k < (s.takeWhile p).length + 1 := List.mem_range.mp (List.mem_reverse.mp hk)
    refine ⟨s.take k, (List.take_append_drop _ s).symm, ?_, rfl⟩
    intro c hc
    have hc' : c ∈ (s.takeWhile p).take k := by
      have hs : s = s.takeWhile p ++ s.dropWhile p :=
        (List.takeWhile_append_dropWhile (p := p) (l := s)).symm
      rw [hs, List.take_append_eq_append_take] at hc
      have h0 : k - (s.takeWhile p).length = 0 := by omega
      rw [h0] at hc
      simpa using hc
    exact List.mem_takeWhile_imp (List.take_subset _ _ hc')
  | starL p g =>
    simp only [tokCands, List.mem_map] at hm
    obtain ⟨k, hk, rfl⟩ := hm
    have hklt : k < (s.takeWhile p).length + 1 := List.mem_range.mp hk
    refine ⟨s.take k, (List.take_append_drop _ s).symm, ?_, rfl⟩
    intro c hc
    have hc' : c ∈ (s.takeWhile p).take k := by
      have hs : s = s.takeWhile p ++ s.dropWhile p :=
        (List.takeWhile_append_dropWhile (p := p) (l := s)).symm
      rw [hs, List.take_append_eq_append_take] at hc
      have h0 : k - (s.takeWhile p).length = 0 := by omega
      rw [h0] at hc
      simpa using hc
    exact List.mem_takeWhile_imp (List.take_subset _ _ hc')
  | alts ss g =>
    simp only [tokCands, List.mem_filterMap] at hm
    obtain ⟨l, hl, heq⟩ := hm
    split at heq
    · rename_i hp
      obtain ⟨t', rfl⟩ := isPrefixOf_ex.mp hp
      injection heq with heq
      subst heq
      exact ⟨l, by simp [List.drop_left], hl, rfl⟩
    · simp at heq
  | eol =>
    simp only [tokCands] at hm
    split at hm
    · rename_i hcond
      simp only [List.mem_singleton] at hm
      subst hm
      exact ⟨[], rfl, rfl, hcond, rfl⟩
    · simp at hm

theorem tokCands_complete {t : Tok} {w rest : List Char} {cap : Option (Nat × List Char)}
    (h : TokOK t w rest cap) : (cap, rest) ∈ tokCands t (w ++ rest) := by
  cases t with
  | lit l =>
    obtain ⟨rfl, rfl⟩ := h
    simp only [tokCands, isPrefixOf_ex.mpr ⟨rest, rfl⟩, if_true, List.drop_left,
      List.mem_singleton]
  | one p =>
    obtain ⟨⟨c, rfl, hc⟩, rfl⟩ := h
    simp [tokCands, hc]
  | plus p g =>
    obtain ⟨hne, hall, rfl⟩ := h
    have hlen : 0 < w.length := List.length_pos.mpr hne
    simp only [tokCands, List.mem_map]
    refine ⟨w.length - 1, ?_, ?_⟩
    · rw [List.mem_reverse, List.mem_range, takeWhile_append_all _ hall]
      simp only [List.length_append]
      omega
    · have hk : w.length - 1 + 1 = w.length := by omega
      rw [hk, List.take_left, List.drop_left]
  | star p =>
    obtain ⟨hall, rfl⟩ := h
    simp only [tokCands, List.mem_map]
    refine ⟨w.length, ?_, ?_⟩
    · rw [List.mem_reverse, List.mem_range, takeWhile_append_all _ hall]
      simp only [List.length_append]
      omega
    · rw [List.drop_left]
  | starL p g =>
    obtain ⟨hall, rfl⟩ := h
    simp only [tokCands, List.mem_map]
    refine ⟨w.length, ?_, ?_⟩
    · rw [List.mem_range, takeWhile_append_all _ hall]
      simp only [List.length_append]
      omega
    · rw [List.take_left, List.drop_left]
  | alts ss g =>
    obtain ⟨hw, rfl⟩ := h
    simp only [tokCands, List.mem_filterMap]
    exact ⟨w, hw, by rw [if_pos (isPrefixOf_ex.mpr ⟨rest, rfl⟩), List.drop_left]⟩
  | eol =>
    obtain ⟨rfl, hrest, rfl⟩ := h
    simp [tokCands, hrest]

theorem matchToks_sound {toks : List Tok} {s : List Char} {r : Caps × List Char}
    (h : matchToks toks s = some r) : Matches toks s r.1 r.2 := by
  induction toks generalizing s r with
  | nil =>
    simp only [matchToks, Option.some.injEq] at h
    subst h
    exact Matches.nil s
  | cons t ts ih =>
    simp only [matchToks] at h
    obtain ⟨cr, hcr, hf⟩ := List.exists_of_findSome?_eq_some h
    rw [Option.map_eq_some'] at hf
    obtain ⟨res, hres, hpair⟩ := hf
    obtain ⟨w, hs, htok⟩ := tokCands_sound hcr
    subst hs
    have hm := ih hres
    rw [← hpair]
    exact Matches.cons htok hm

theorem matchToks_complete {toks : List Tok} {s : List Char} {caps : Caps}
    {rest : List Char} (h : Matches toks s caps rest) :
    (matchToks toks s).isSome = true := by
  induction h with
  | nil s => simp [matchToks]
  | cons htok hm ih =>
    rename_i t ts w rest₀ rest' caps₀ cap
    have hcand := tokCands_complete htok
    apply findSome?_isSome_of hcand
    simp only [Option.isSome_map']
    exact ih

theorem reSearch_sound {toks : List Tok} {s : List Char} {caps : Caps}
    (h : reSearch toks s = some caps) :
    ∃ a t rest, s = a ++ t ∧ Matches toks t caps rest := by
  induction s with
  | nil =>
    simp only [reSearch, Option.map_eq_some'] at h
    obtain ⟨r, hr, hcaps⟩ := h
    subst hcaps
    exact ⟨[], [], r.2, rfl, matchToks_sound hr⟩
  | cons c rest ih =>
    rw [reSearch] at h
    split at h
    · rename_i r hr
      injection h with h
      subst h
      exact ⟨[], c :: rest, r.2, rfl, matchToks_sound hr⟩
    · obtain ⟨a, t, rest', hs, hm⟩ := ih h
      exact ⟨c :: a, t, rest', by rw [hs]; rfl, hm⟩

theorem reSearch_complete (toks : List Tok) (a t : List Char) {caps : Caps}
    {rest : List Char} (hm : Matches toks t caps rest) :
    (reSearch toks (a ++ t)).isSome = true := by
  induction a with
  | nil =>
    cases t with
    | nil =>
      simp only [List.nil_append, reSearch, Option.isSome_map']
      exact matchToks_complete hm
    | cons c r =>
      simp only [List.nil_append]
      rw [reSearch]
      split
      · simp
      · rename_i hnone
        have := matchToks_complete hm
        rw [hnone] at this
        simp at this
  | cons c a' ih =>
    simp only [List.cons_append]
    rw [reSearch]
    split
    · simp
    · exact ih

/-- Any capture made by a successful match is a piece of text the
corresponding group token consumed. -/
theorem tokOK_cap_eq {t : Tok} {w rest : List Char} {i : Nat} {wc : List Char}
    (h : TokOK t w rest (some (i, wc))) : wc = w := by
  cases t with
  | lit l => simp [TokOK] at h
  | one p => simp [TokOK] at h
  | plus p g =>
    obtain ⟨-, -, hcap⟩ := h
    cases g with
    | none => simp at hcap
    | some j =>
      rw [Option.map_some'] at hcap
      injection hcap with h1
      exact congrArg Prod.snd h1
  | star p => simp [TokOK] at h
  | starL p g =>
    obtain ⟨-, hcap⟩ := h
    cases g with
    | none => simp at hcap
    | some j =>
      rw [Option.map_some'] at hcap
      injection hcap with h1
      exact congrArg Prod.snd h1
  | alts ss g =>
    obtain ⟨-, hcap⟩ := h
    cases g with
    | none => simp at hcap
    | some j =>
      rw [Option.map_some'] at hcap
      injection hcap with h1
      exact congrArg Prod.snd h1
  | eol => simp [TokOK] at h

/-- Every captured string of a match consists of characters of the text. -/
theorem matches_caps_subset {toks : List Tok} {s : List Char} {caps : Caps}
    {rest : List Char} (h : Matches toks s caps rest) :
    ∀ pr ∈ caps, ∀ c ∈ pr.2, c ∈ s := by
  induction h with
  | nil s => simp
  | cons htok hm ih =>
    rename_i t ts w rest₀ rest' caps₀ cap
    intro pr hpr c hc
    cases cap with
    | none => exact List.mem_append_right _ (ih pr hpr c hc)
    | some iw =>
      obtain ⟨i, wc⟩ := iw
      simp only [consCap, List.mem_cons] at hpr
      rcases hpr with rfl | hpr
      · have hwc : wc = w := tokOK_cap_eq htok
        have hc' : c ∈ wc := hc
        rw [hwc] at hc'
        exact List.mem_append_left _ hc'
      · exact List.mem_append_right _ (ih pr hpr c hc)

/-! ## Occurrence predicates: the four claim-relevant patterns, written out
as plain decompositions of the text, and their agreement with the matcher -/

/-- The text `s` contains the word `w` followed by `is null` with
whitespace between the three parts (the shape matched by `(\w+)\s+is\s+null`). -/
def NullAt (w s : List Char) : Prop :=
  ∃ a s1 s2 b, s = a ++ (w ++ (s1 ++ ("is".data ++ (s2 ++ ("null".data ++ b))))) ∧
    s1 ≠ [] ∧ (∀ c ∈ s1, isPySpace c = true) ∧ s2 ≠ [] ∧ (∀ c ∈ s2, isPySpace c = true)

/-- Some column token followed by `is null` occurs in `s`. -/
def NullOccurs (s : List Char) : Prop :=
  ∃ w, w ≠ [] ∧ (∀ c ∈ w, isWordChar c = true) ∧ NullAt w s

/-- The text `s` contains the word `w` followed by `is not null` with
whitespace between the four parts (shape of `(\w+)\s+is\s+not\s+null`). -/
def NotNullAt (w s : List Char) : Prop :=
  ∃ a s1 s2 s3 b,
    s = a ++ (w ++ (s1 ++ ("is".data ++ (s2 ++ ("not".data ++ (s3 ++ ("null".data ++ b))))))) ∧
    s1 ≠ [] ∧ (∀ c ∈ s1, isPySpace c = true) ∧ s2 ≠ [] ∧ (∀ c ∈ s2, isPySpace c = true) ∧
    s3 ≠ [] ∧ (∀ c ∈ s3, isPySpace c = true)

/-- Some column token followed by `is not null` occurs in `s`. -/
def NotNullOccurs (s : List Char) : Prop :=
  ∃ w, w ≠ [] ∧ (∀ c ∈ w, isWordChar c = true) ∧ NotNullAt w s

/-! Smart constructors for `Matches`, one per token form used below. -/

theorem matches_lit (l : List Char) {ts : List Tok} {rest rest' : List Char} {caps : Caps}
    (h2 : Matches ts rest caps rest') : Matches (.lit l :: ts) (l ++ rest) caps rest' :=
  @Matches.cons (.lit l) ts l rest rest' caps none ⟨rfl, rfl⟩ h2

theorem matches_one (p : Char → Bool) {c : Char} {ts : List Tok} {rest rest' : List Char}
    {caps : Caps} (hc : p c = true) (h2 : Matches ts rest caps rest') :
    Matches (.one p :: ts) ([c] ++ rest) caps rest' :=
  @Matches.cons (.one p) ts [c] rest rest' caps none ⟨⟨c, rfl, hc⟩, rfl⟩ h2

theorem matches_plus_n (p : Char → Bool) {w : List Char} {ts : List Tok}
    {rest rest' : List Char} {caps : Caps} (hw : w ≠ []) (hall : ∀ c ∈ w, p c = true)
    (h2 : Matches ts rest caps rest') : Matches (.plus p none :: ts) (w ++ rest) caps rest' :=
  @Matches.cons (.plus p none) ts w rest rest' caps none ⟨hw, hall, rfl⟩ h2

theorem matches_plus_g (p : Char → Bool) (i : Nat) {w : List Char} {ts : List Tok}
    {rest rest' : List Char} {caps : Caps} (hw : w ≠ []) (hall : ∀ c ∈ w, p c = true)
    (h2 : Matches ts rest caps rest') :
    Matches (.plus p (some i) :: ts) (w ++ rest) ((i, w) :: caps) rest' :=
  @Matches.cons (.plus p (some i)) ts w rest rest' caps (some (i, w)) ⟨hw, hall, rfl⟩ h2

theorem matches_star (p : Char → Bool) {w : List Char} {ts : List Tok}
    {rest rest' : List Char} {caps : Caps} (hall : ∀ c ∈ w, p c = true)
    (h2 : Matches ts rest caps rest') : Matches (.star p :: ts) (w ++ rest) caps rest' :=
  @Matches.cons (.star p) ts w rest rest' caps none ⟨hall, rfl⟩ h2

theorem matches_starL_g (p : Char → Bool) (i : Nat) {w : List Char} {ts : List Tok}
    {rest rest' : List Char} {caps : Caps} (hall : ∀ c ∈ w, p c = true)
    (h2 : Matches ts rest caps rest') :
    Matches (.starL p (some i) :: ts) (w ++ rest) ((i, w) :: caps) rest' :=
  @Matches.cons (.starL p (some i)) ts w rest rest' caps (some (i, w)) ⟨hall, rfl⟩ h2

theorem nullOccurs_searchSome {s : List Char} (h : NullOccurs s) :
    (reSearch nullToks s).isSome = true := by
  obtain ⟨w, hw, hword, a, s1, s2, b, hs, hs1, hall1, hs2, hall2⟩ := h
  subst hs
  exact reSearch_complete nullToks a _
    (matches_plus_g isWordChar 1 hw hword
      (matches_plus_n isPySpace hs1 hall1
        (matches_lit "is".data
          (matches_plus_n isPySpace hs2 hall2
            (matches_lit "null".data (Matches.nil b))))))

theorem nullSearch_occurs {s : List Char} {caps : Caps}
    (h : reSearch nullToks s = some caps) :
    ∃ w, caps = [(1, w)] ∧ w ≠ [] ∧ (∀ c ∈ w, isWordChar c = true) ∧ NullAt w s := by
  obtain ⟨a, t, rest, hs, hm⟩ := reSearch_sound h
  simp only [nullToks] at hm
  rcases hm with _ | @⟨_, _, w1, rest1, _, caps1, cap1, htok1, hm⟩
  rcases hm with _ | @⟨_, _, w2, rest2, _, caps2, cap2, htok2, hm⟩
  rcases hm with _ | @⟨_, _, w3, rest3, _, caps3, cap3, htok3, hm⟩
  rcases hm with _ | @⟨_, _, w4, rest4, _, caps4, cap4, htok4, hm⟩
  rcases hm with _ | @⟨_, _, w5, rest5, _, caps5, cap5, htok5, hm⟩
  rcases hm
  obtain ⟨hne1, hall1, hcap1⟩ := htok1
  obtain ⟨hne2, hall2, hcap2⟩ := htok2
  obtain ⟨hlit3, hcap3⟩ := htok3
  obtain ⟨hne4, hall4, hcap4⟩ := htok4
  obtain ⟨hlit5, hcap5⟩ := htok5
  subst hlit3; subst hlit5
  subst hcap1; subst hcap2; subst hcap3; subst hcap4; subst hcap5
  refine ⟨w1, by simp [consCap], hne1, hall1, a, w2, w4, rest, ?_, hne2, hall2, hne4, hall4⟩
  exact hs

theorem notNullOccurs_searchSome {s : List Char} (h : NotNullOccurs s) :
    (reSearch notNullToks s).isSome = true := by
  obtain ⟨w, hw, hword, a, s1, s2, s3, b, hs, hs1, hall1, hs2, hall2, hs3, hall3⟩ := h
  subst hs
  exact reSearch_complete notNullToks a _
    (matches_plus_g isWordChar 1 hw hword
      (matches_plus_n isPySpace hs1 hall1
        (matches_lit "is".data
          (matches_plus_n isPySpace hs2 hall2
            (matches_lit "not".data
              (matches_plus_n isPySpace hs3 hall3
                (matches_lit "null".data (Matches.nil b))))))))

theorem notNullSearch_occurs {s : List Char} {caps : Caps}
    (h : reSearch notNullToks s = some caps) :
    ∃ w, caps = [(1, w)] ∧ w ≠ [] ∧ (∀ c ∈ w, isWordChar c = true) ∧ NotNullAt w s := by
  obtain ⟨a, t, rest, hs, hm⟩ := reSearch_sound h
  simp only [notNullToks] at hm
  rcases hm with _ | @⟨_, _, w1, rest1, _, caps1, cap1, htok1, hm⟩
  rcases hm with _ | @⟨_, _, w2, rest2, _, caps2, cap2, htok2, hm⟩
  rcases hm with _ | @⟨_, _, w3, rest3, _, caps3, cap3, htok3, hm⟩
  rcases hm with _ | @⟨_, _, w4, rest4, _, caps4, cap4, htok4, hm⟩
  rcases hm with _ | @⟨_, _, w5, rest5, _, caps5, cap5, htok5, hm⟩
  rcases hm with _ | @⟨_, _, w6, rest6, _, caps6, cap6, htok6, hm⟩
  rcases hm with _ | @⟨_, _, w7, rest7, _, caps7, cap7, htok7, hm⟩
  rcases hm
  obtain ⟨hne1, hall1, hcap1⟩ := htok1
  obtain ⟨hne2, hall2, hcap2⟩ := htok2
  obtain ⟨hlit3, hcap3⟩ := htok3
  obtain ⟨hne4, hall4, hcap4⟩ := htok4
  obtain ⟨hlit5, hcap5⟩ := htok5
  obtain ⟨hne6, hall6, hcap6⟩ := htok6
  obtain ⟨hlit7, hcap7⟩ := htok7
  subst hlit3; subst hlit5; subst hlit7
  subst hcap1; subst hcap2; subst hcap3; subst hcap4; subst hcap5; subst hcap6; subst hcap7
  refine ⟨w1, by simp [consCap], hne1, hall1, a, w2, w4, w6, rest, ?_,
    hne2, hall2, hne4, hall4, hne6, hall6⟩
  exact hs

/-- The spec's structural pattern, with the `.`-segments newline-free as the
source regex (which lacks `re.DOTALL`) requires. -/
def StructContent (s : List Char) : Prop :=
  ∃ a w1 m w2 w3 c b,
    s = a ++ ("select".data ++ (w1 ++ (m ++ (w2 ++ ("from".data ++ (w3 ++ (c ++ b))))))) ∧
    w1 ≠ [] ∧ (∀ x ∈ w1, isPySpace x = true) ∧ m ≠ [] ∧ (∀ x ∈ m, notNL x = true) ∧
    w2 ≠ [] ∧ (∀ x ∈ w2, isPySpace x = true) ∧ w3 ≠ [] ∧ (∀ x ∈ w3, isPySpace x = true) ∧
    c ≠ [] ∧ (∀ x ∈ c, notNL x = true)

/-- The claim's reading of the structural pattern: arbitrary characters —
including newlines — in the two content segments. -/
def StructContentAny (s : List Char) : Prop :=
  ∃ a w1 m w2 w3 c b,
    s = a ++ ("select".data ++ (w1 ++ (m ++ (w2 ++ ("from".data ++ (w3 ++ (c ++ b))))))) ∧
    w1 ≠ [] ∧ (∀ x ∈ w1, isPySpace x = true) ∧ m ≠ [] ∧
    w2 ≠ [] ∧ (∀ x ∈ w2, isPySpace x = true) ∧ w3 ≠ [] ∧ (∀ x ∈ w3, isPySpace x = true) ∧
    c ≠ []

theorem structContent_reTest {s : List Char} (h : StructContent s) :
    reTest structToks s = true := by
  obtain ⟨a, w1, m, w2, w3, c, b, hs, hw1, hall1, hm, hallm, hw2, hall2, hw3, hall3,
    hc, hallc⟩ := h
  subst hs
  exact reSearch_complete structToks a _
    (matches_lit "select".data
      (matches_plus_n isPySpace hw1 hall1
        (matches_plus_n notNL hm hallm
          (matches_plus_n isPySpace hw2 hall2
            (matches_lit "from".data
              (matches_plus_n isPySpace hw3 hall3
                (matches_plus_n notNL hc hallc (Matches.nil b))))))))

/-- When the structural check of line 77 passes, the column-extraction
pattern of line 96 (lazy group, `re.DOTALL`) necessarily matches too. -/
theorem selCols_of_struct {s : List Char} {caps : Caps}
    (h : reSearch structToks s = some caps) : (reSearch selColsToks s).isSome = true := by
  obtain ⟨a, t, rest, hs, hm⟩ := reSearch_sound h
  simp only [structToks] at hm
  rcases hm with _ | @⟨_, _, w1, rest1, _, caps1, cap1, htok1, hm⟩
  rcases hm with _ | @⟨_, _, w2, rest2, _, caps2, cap2, htok2, hm⟩
  rcases hm with _ | @⟨_, _, w3, rest3, _, caps3, cap3, htok3, hm⟩
  rcases hm with _ | @⟨_, _, w4, rest4, _, caps4, cap4, htok4, hm⟩
  rcases hm with _ | @⟨_, _, w5, rest5, _, caps5, cap5, htok5, hm⟩
  rcases hm with _ | @⟨_, _, w6, rest6, _, caps6, cap6, htok6, hm⟩
  rcases hm with _ | @⟨_, _, w7, rest7, _, caps7, cap7, htok7, hm⟩
  rcases hm
  obtain ⟨hlit1, -⟩ := htok1
  obtain ⟨hne2, hall2, -⟩ := htok2
  obtain ⟨hne3, hall3, -⟩ := htok3
  obtain ⟨hne4, hall4, -⟩ := htok4
  obtain ⟨hlit5, -⟩ := htok5
  subst hlit1; subst hlit5
  subst hs
  exact reSearch_complete selColsToks a _
    (matches_lit "select".data
      (matches_plus_n isPySpace hne2 hall2
        (matches_starL_g anyChar 1 (fun c _ => rfl)
          (matches_plus_n isPySpace hne4 hall4
            (matches_lit "from".data (Matches.nil (w6 ++ (w7 ++ rest))))))))

/-- A semicolon with later non-whitespace content on the same line
(the shape matched by `;.*\S`:  `.*` does not cross a newline). -/
def SemiSameLine (s : List Char) : Prop :=
  ∃ a m c b, s = a ++ ([';'] ++ (m ++ ([c] ++ b))) ∧
    (∀ x ∈ m, notNL x = true) ∧ nonSpace c = true

/-- The claim's reading: a semicolon with any later non-whitespace content. -/
def SemiAfterAny (s : List Char) : Prop :=
  ∃ a b, s = a ++ ([';'] ++ b) ∧ ∃ c ∈ b, nonSpace c = true

theorem semiSameLine_reTest {s : List Char} (h : SemiSameLine s) :
    reTest semiToks s = true := by
  obtain ⟨a, m, c, b, hs, hallm, hc⟩ := h
  subst hs
  exact reSearch_complete semiToks a _
    (matches_lit [';']
      (matches_star notNL hallm
        (matches_one nonSpace hc (Matches.nil b))))

/-! ## Unfolding lemmas for the pipeline -/

theorem validate_sql_eq_body (q : List Char) : validate_sql q = classifyBody q := rfl

theorem validate_sql_pred {q : List Char}
    (h1 : ¬(q = [] ∨ q.length < 5))
    (h2 : "select".data.isPrefixOf (pyStrip (pyLower q)) = true)
    (h3 : q.count '(' = q.count ')')
    (h4 : reTest structToks (pyLower q) = true)
    (h5 : findCommonError (pyLower q) = none) :
    validate_sql q = predPart (extractSelectedColumns (pyLower q)) (extractTable (pyLower q))
      (pyLower (pyStrip (takeBeforeSemi q))) := by
  rw [validate_sql_eq_body]
  unfold classifyBody
  rw [if_neg h1, if_neg (not_not_intro h2), if_neg (not_not_intro h3),
    if_neg (not_not_intro h4), h5]

theorem validate_sql_commonError {q m : List Char}
    (h1 : ¬(q = [] ∨ q.length < 5))
    (h2 : "select".data.isPrefixOf (pyStrip (pyLower q)) = true)
    (h3 : q.count '(' = q.count ')')
    (h4 : reTest structToks (pyLower q) = true)
    (h5 : findCommonError (pyLower q) = some m) :
    validate_sql q = .rejected m := by
  rw [validate_sql_eq_body]
  unfold classifyBody
  rw [if_neg h1, if_neg (not_not_intro h2), if_neg (not_not_intro h3),
    if_neg (not_not_intro h4), h5]

theorem findCommonError_of_semi {ql : List Char}
    (ha : reTest whereAndToks ql = false) (hb : reTest whereOrToks ql = false)
    (hc : reTest fromFromToks ql = false) (hd : reTest selectSelectToks ql = false)
    (he : reTest whereWhereToks ql = false) (hf : reTest fromEndToks ql = false)
    (hg : reTest semiToks ql = true) :
    findCommonError ql = some msgExtraSemi := by
  unfold findCommonError commonErrorList
  simp [List.findSome?_cons, ha, hb, hc, hd, he, hf, hg]

theorem findCommonError_mem {ql m : List Char} (h : findCommonError ql = some m) :
    m = msgWhereAnd ∨ m = msgWhereOr ∨ m = msgDupFrom ∨ m = msgDupSelect ∨
    m = msgDupWhere ∨ m = msgFromEnd ∨ m = msgExtraSemi := by
  unfold findCommonError at h
  obtain ⟨x, hx, hfx⟩ := List.exists_of_findSome?_eq_some h
  split at hfx
  · injection hfx with hfx
    subst hfx
    simp only [commonErrorList, List.mem_cons, List.not_mem_nil, or_false] at hx
    rcases hx with rfl | rfl | rfl | rfl | rfl | rfl | rfl <;> simp
  · cases hfx

/-- An accepted result comes from the predicate cascade, with the structural
check necessarily having passed. -/
theorem accepted_eq_predPart {q : List Char} {i : AcceptedInfo}
    (h : validate_sql q = .accepted i) :
    predPart (extractSelectedColumns (pyLower q)) (extractTable (pyLower q))
      (pyLower (pyStrip (takeBeforeSemi q))) = .accepted i ∧
    reTest structToks (pyLower q) = true := by
  rw [validate_sql_eq_body] at h
  unfold classifyBody at h
  split at h
  · simp at h
  · split at h
    · simp at h
    · split at h
      · simp at h
      · split at h
        · simp at h
        · rename_i h4
          split at h
          · simp at h
          · exact ⟨h, not_not.mp h4⟩

/-! ## Lower-case character machinery (for the field-casing claim) -/

/-- No character of `s` is an ASCII upper-case letter. -/
def noUpper (s : List Char) : Prop := ∀ c ∈ s, ¬(65 ≤ c.toNat ∧ c.toNat ≤ 90)

theorem toNat_ofNat_valid {m : Nat} (h : m < 55296) : (Char.ofNat m).toNat = m := by
  unfold Char.ofNat
  rw [dif_pos (Or.inl h : m.isValidChar)]
  rfl

theorem pyCharLower_notUpper (c : Char) :
    ¬(65 ≤ (pyCharLower c).toNat ∧ (pyCharLower c).toNat ≤ 90) := by
  unfold pyCharLower
  split
  · rename_i h
    have hv : (Char.ofNat (c.toNat + 32)).toNat = c.toNat + 32 :=
      toNat_ofNat_valid (by omega)
    rw [hv]
    omega
  · rename_i h
    exact h

theorem noUpper_pyLower (s : List Char) : noUpper (pyLower s) := by
  intro c hc
  rw [pyLower, List.mem_map] at hc
  obtain ⟨d, -, rfl⟩ := hc
  exact pyCharLower_notUpper d

theorem noUpper_subset {s t : List Char} (h : ∀ c ∈ t, c ∈ s) (hs : noUpper s) :
    noUpper t := fun c hc => hs c (h c hc)

/-! ## Subset lemmas: every extracted piece is made of characters of the
text it was extracted from -/

theorem getCap_subset {caps : Caps} {s : List Char}
    (h : ∀ pr ∈ caps, ∀ c ∈ pr.2, c ∈ s) (i : Nat) : ∀ c ∈ getCap caps i, c ∈ s := by
  intro c hc
  unfold getCap at hc
  split at hc
  · rename_i pr hpr
    exact h pr (List.mem_of_find?_eq_some hpr) c hc
  · cases hc

theorem reSearch_caps_subset {toks : List Tok} {s : List Char} {caps : Caps}
    (h : reSearch toks s = some caps) : ∀ pr ∈ caps, ∀ c ∈ pr.2, c ∈ s := by
  obtain ⟨a, t, rest, hs, hm⟩ := reSearch_sound h
  subst hs
  intro pr hpr c hc
  exact List.mem_append_right a (matches_caps_subset hm pr hpr c hc)

theorem splitChar_subset {sep : Char} {s : List Char} :
    ∀ piece ∈ splitChar sep s, ∀ c ∈ piece, c ∈ s := by
  induction s with
  | nil =>
    intro piece hp c hc
    simp only [splitChar, List.mem_singleton] at hp
    subst hp
    cases hc
  | cons a as ih =>
    intro piece hp c hc
    simp only [splitChar] at hp
    split at hp
    · rcases List.mem_cons.mp hp with rfl | hp'
      · cases hc
      · exact List.mem_cons_of_mem a (ih piece hp' c hc)
    · cases hsp : splitChar sep as with
      | nil =>
        rw [hsp] at hp
        simp only [List.mem_singleton] at hp
        subst hp
        rcases List.mem_singleton.mp hc with rfl
        exact List.mem_cons_self _ _
      | cons h t =>
        rw [hsp] at hp
        rcases List.mem_cons.mp hp with rfl | hp'
        · rcases List.mem_cons.mp hc with rfl | hc'
          · exact List.mem_cons_self _ _
          · have hh : h ∈ splitChar sep as := by rw [hsp]; exact List.mem_cons_self h t
            exact List.mem_cons_of_mem a (ih h hh c hc')
        · have ht : piece ∈ splitChar sep as := by
            rw [hsp]; exact List.mem_cons_of_mem h hp'
          exact List.mem_cons_of_mem a (ih piece ht c hc)

theorem pyStrip_subset {s : List Char} : ∀ c ∈ pyStrip s, c ∈ s := by
  intro c hc
  unfold pyStrip at hc
  rw [List.mem_reverse] at hc
  have h1 := (List.dropWhile_sublist _).subset hc
  rw [List.mem_reverse] at h1
  exact (List.dropWhile_sublist _).subset h1

theorem stripQuotes_subset {s : List Char} : ∀ c ∈ stripQuotes s, c ∈ s := by
  intro c hc
  unfold stripQuotes at hc
  rw [List.mem_reverse] at hc
  have h1 := (List.dropWhile_sublist _).subset hc
  rw [List.mem_reverse] at h1
  exact (List.dropWhile_sublist _).subset h1

theorem quotedVal_subset {s g1 rest2 : List Char} (h : quotedVal s = some (g1, rest2)) :
    (∀ c ∈ g1, c ∈ s) ∧ (∀ c ∈ rest2, c ∈ s) := by
  cases s with
  | nil => simp [quotedVal] at h
  | cons c0 rest =>
    simp only [quotedVal] at h
    split at h
    · split at h
      · rename_i d rest2' heq
        split at h
        · injection h with h
          injection h with hg hr
          subst hg; subst hr
          constructor
          · intro c hc
            exact List.mem_cons_of_mem c0 (mem_of_mem_takeWhile hc)
          · intro c hc
            have hdrop : c ∈ rest.drop (rest.takeWhile (fun d => !(d = sq))).length := by
              rw [heq]; exact List.mem_cons_of_mem d hc
            exact List.mem_cons_of_mem c0 (List.drop_subset _ _ hdrop)
        · cases h
      · cases h
    · cases h

theorem findallVals_subset :
    ∀ fuel (s : List Char), ∀ pr ∈ findallVals fuel s,
      (∀ c ∈ pr.1, c ∈ s) ∧ (∀ c ∈ pr.2, c ∈ s) := by
  intro fuel
  induction fuel with
  | zero => intro s pr hpr; simp [findallVals] at hpr
  | succ n ih =>
    intro s pr hpr
    cases s with
    | nil => simp [findallVals] at hpr
    | cons c rest =>
      rw [findallVals] at hpr
      split at hpr
      · rename_i g1 rest2 hq
        rcases List.mem_cons.mp hpr with rfl | hpr'
        · exact ⟨(quotedVal_subset hq).1, by simp⟩
        · have hs := ih rest2 pr hpr'
          have hr2 := (quotedVal_subset hq).2
          exact ⟨fun c hc => hr2 c (hs.1 c hc), fun c hc => hr2 c (hs.2 c hc)⟩
      · split at hpr
        · have hs := ih rest pr hpr
          exact ⟨fun x hx => List.mem_cons_of_mem c (hs.1 x hx),
            fun x hx => List.mem_cons_of_mem c (hs.2 x hx)⟩
        · rcases List.mem_cons.mp hpr with rfl | hpr'
          · exact ⟨by simp, fun x hx => mem_of_mem_takeWhile hx⟩
          · have hs := ih _ pr hpr'
            exact ⟨fun x hx => List.drop_subset _ _ (hs.1 x hx),
              fun x hx => List.drop_subset _ _ (hs.2 x hx)⟩

theorem parseInValues_subset {vals : List Char} :
    ∀ v ∈ parseInValues vals, ∀ c ∈ v, c ∈ vals := by
  intro v hv c hc
  unfold parseInValues at hv
  rw [List.mem_map] at hv
  obtain ⟨pr, hpr, rfl⟩ := hv
  have h := findallVals_subset vals.length vals pr hpr
  split at hc
  · exact h.1 c hc
  · exact h.2 c hc

/-! ## Result projections (used to state claims about single fields) -/

def operationOf : SqlResult → Option (List Char)
  | .accepted i => i.operation
  | .rejected _ => none

def columnOf : SqlResult → Option (List Char)
  | .accepted i => i.column
  | .rejected _ => none

def selColsOf : SqlResult → Option (List (List Char))
  | .accepted i => some i.selected_columns
  | .rejected _ => none

def tableOf : SqlResult → Option (List Char)
  | .accepted i => some i.table
  | .rejected _ => none

theorem predPart_fields {sc : List (List Char)} {tn cleanL : List Char} {i : AcceptedInfo}
    (h : predPart sc tn cleanL = .accepted i) :
    i.selected_columns = sc ∧ i.table = tn := by
  unfold predPart at h
  split at h
  · injection h with h; subst h; exact ⟨rfl, rfl⟩
  · split at h
    · injection h with h; subst h; exact ⟨rfl, rfl⟩
    · split at h
      · injection h with h; subst h; exact ⟨rfl, rfl⟩
      · split at h
        · injection h with h; subst h; exact ⟨rfl, rfl⟩
        · injection h with h; subst h; exact ⟨rfl, rfl⟩

theorem predPart_is_accepted (sc : List (List Char)) (tn cleanL : List Char) :
    ∃ i, predPart sc tn cleanL = .accepted i := by
  unfold predPart
  split
  · exact ⟨_, rfl⟩
  · split
    · exact ⟨_, rfl⟩
    · split
      · exact ⟨_, rfl⟩
      · split
        · exact ⟨_, rfl⟩
        · exact ⟨_, rfl⟩

/-! ## The claims -/

/-- C1 (amended): for the input `"SELECT x FROM"`, `validate_sql` returns
Rejected `"Query must include both SELECT and FROM clauses"`: the structural
check of line 77 fails (nothing follows `from`) and fires before the
common-error scan, so the `from\s*$` rejection of line 87 is never reached
for this input. -/
theorem claim_C1 : validate_sql "SELECT x FROM".data = .rejected msgStructure := by decide

/-- C1 counterexample: the claim's asserted rejection reason
`"FROM clause cannot be at the end without a table name"` is not what the
code returns for `"SELECT x FROM"`. -/
theorem claim_C1_cex :
    ¬ validate_sql "SELECT x FROM".data = .rejected msgFromEnd := by decide

/-- C2: any input passing all rejection checks whose semicolon-truncated,
lowered text contains a column token followed by `is not null` (and contains
no `is null` predicate decomposition) is Accepted with
`operation = not_null_check`, capturing a column that does sit in front of
an `is not null` occurrence; the `is null` check, though tested first,
cannot fire. -/
theorem claim_C2 (q : List Char)
    (h1 : ¬(q = [] ∨ q.length < 5))
    (h2 : "select".data.isPrefixOf (pyStrip (pyLower q)) = true)
    (h3 : q.count '(' = q.count ')')
    (h4 : reTest structToks (pyLower q) = true)
    (h5 : findCommonError (pyLower q) = none)
    (hocc : NotNullOccurs (pyLower (pyStrip (takeBeforeSemi q))))
    (hno : ¬ NullOccurs (pyLower (pyStrip (takeBeforeSemi q)))) :
    ∃ col, col ≠ [] ∧ (∀ c ∈ col, isWordChar c = true) ∧
      NotNullAt col (pyLower (pyStrip (takeBeforeSemi q))) ∧
      validate_sql q = .accepted
        (notNullInfo (extractSelectedColumns (pyLower q)) (extractTable (pyLower q)) col) := by
  have hnull : reSearch nullToks (pyLower (pyStrip (takeBeforeSemi q))) = none := by
    cases hres : reSearch nullToks (pyLower (pyStrip (takeBeforeSemi q))) with
    | none => rfl
    | some caps =>
      obtain ⟨w, -, hw, hword, hat⟩ := nullSearch_occurs hres
      exact absurd ⟨w, hw, hword, hat⟩ hno
  have hsome : (reSearch notNullToks (pyLower (pyStrip (takeBeforeSemi q)))).isSome = true :=
    notNullOccurs_searchSome hocc
  obtain ⟨caps, hcaps⟩ := Option.isSome_iff_exists.mp hsome
  obtain ⟨w, hcapeq, hw, hword, hat⟩ := notNullSearch_occurs hcaps
  refine ⟨w, hw, hword, hat, ?_⟩
  rw [validate_sql_pred h1 h2 h3 h4 h5]
  unfold predPart
  rw [hnull, hcaps, hcapeq]
  rfl

/-- C2 witness: `"select a from t where x is not null"` satisfies every
hypothesis of `claim_C2` and is classified `not_null_check`. -/
theorem claim_C2_witness :
    operationOf (validate_sql "select a from t where x is not null".data) =
      some "not_null_check".data := by
  obtain ⟨col, -, -, -, heq⟩ :=
    claim_C2 "select a from t where x is not null".data
      (by decide) (by decide) (by decide) (by decide) (by decide)
      ⟨"x".data, by decide, by decide,
        "select a from t where ".data, [' '], [' '], [' '], [],
        by decide, by decide, by decide, by decide, by decide, by decide, by decide⟩
      (by
        intro hocc
        have hsome := nullOccurs_searchSome hocc
        rw [show reSearch nullToks
            (pyLower (pyStrip (takeBeforeSemi "select a from t where x is not null".data))) =
            none by decide] at hsome
        simp at hsome)
  rw [heq]
  rfl

/-- C3 (amended): an input passing the length, SELECT-prefix, balance and
structural checks, on which none of the first six common-error patterns
matches, and whose lowered text contains a semicolon followed — on the same
line — by later non-whitespace content, is Rejected
`"Extra characters after semicolon"`.  (The source pattern `;.*\S` is
compiled without `re.DOTALL`, so content on a later line is not caught.) -/
theorem claim_C3 (q : List Char)
    (h1 : ¬(q = [] ∨ q.length < 5))
    (h2 : "select".data.isPrefixOf (pyStrip (pyLower q)) = true)
    (h3 : q.count '(' = q.count ')')
    (h4 : reTest structToks (pyLower q) = true)
    (ha : reTest whereAndToks (pyLower q) = false)
    (hb : reTest whereOrToks (pyLower q) = false)
    (hc : reTest fromFromToks (pyLower q) = false)
    (hd : reTest selectSelectToks (pyLower q) = false)
    (he : reTest whereWhereToks (pyLower q) = false)
    (hf : reTest fromEndToks (pyLower q) = false)
    (hsemi : SemiSameLine (pyLower q)) :
    validate_sql q = .rejected msgExtraSemi :=
  validate_sql_commonError h1 h2 h3 h4
    (findCommonError_of_semi ha hb hc hd he hf (semiSameLine_reTest hsemi))

/-- C3 witness: `"SELECT a FROM t; DROP TABLE t"` (spec Scenario 5). -/
theorem claim_C3_witness :
    validate_sql "SELECT a FROM t; DROP TABLE t".data = .rejected msgExtraSemi :=
  claim_C3 "SELECT a FROM t; DROP TABLE t".data
    (by decide) (by decide) (by decide) (by decide) (by decide) (by decide)
    (by decide) (by decide) (by decide) (by decide)
    ⟨"select a from t".data, [' '], 'd', "rop table t".data, by decide, by decide, by decide⟩

/-- C3 counterexample: `"select a from t;\nx"` has non-whitespace content
after its semicolon and passes every earlier check, yet is Accepted — the
claim's unconditional `"Extra characters after semicolon"` rejection fails
when the content sits on a later line. -/
theorem claim_C3_cex :
    ¬("select a from t;\nx".data = ([] : List Char) ∨
        "select a from t;\nx".data.length < 5) ∧
    "select".data.isPrefixOf (pyStrip (pyLower "select a from t;\nx".data)) = true ∧
    "select a from t;\nx".data.count '(' = "select a from t;\nx".data.count ')' ∧
    reTest structToks (pyLower "select a from t;\nx".data) = true ∧
    reTest whereAndToks (pyLower "select a from t;\nx".data) = false ∧
    reTest whereOrToks (pyLower "select a from t;\nx".data) = false ∧
    reTest fromFromToks (pyLower "select a from t;\nx".data) = false ∧
    reTest selectSelectToks (pyLower "select a from t;\nx".data) = false ∧
    reTest whereWhereToks (pyLower "select a from t;\nx".data) = false ∧
    reTest fromEndToks (pyLower "select a from t;\nx".data) = false ∧
    SemiAfterAny (pyLower "select a from t;\nx".data) ∧
    validate_sql "select a from t;\nx".data = .accepted (plainInfo ["a".data] "t".data) ∧
    ¬ validate_sql "select a from t;\nx".data = .rejected msgExtraSemi := by
  refine ⟨by decide, by decide, by decide, by decide, by decide, by decide, by decide,
    by decide, by decide, by decide, ?_, by decide, by decide⟩
  exact ⟨"select a from t".data, ['\n', 'x'], by decide, 'x', by decide, by decide⟩

/-- C4: the first three rejection checks, in their fixed order: any input
shorter than 5 characters is Rejected "Query is too short"; any input of
length at least 5 whose trimmed lower-cased text does not start with
`select` is Rejected "Only SELECT queries are allowed" (regardless of
parenthesis balance); any input passing both with differing `(` and `)`
counts is Rejected "Unbalanced parentheses in query". -/
theorem claim_C4 :
    (∀ q : List Char, q.length < 5 → validate_sql q = .rejected msgTooShort) ∧
    (∀ q : List Char, 5 ≤ q.length →
      "select".data.isPrefixOf (pyStrip (pyLower q)) = false →
      validate_sql q = .rejected msgOnlySelect) ∧
    (∀ q : List Char, 5 ≤ q.length →
      "select".data.isPrefixOf (pyStrip (pyLower q)) = true →
      q.count '(' ≠ q.count ')' →
      validate_sql q = .rejected msgUnbalanced) := by
  refine ⟨?_, ?_, ?_⟩
  · intro q hq
    rw [validate_sql_eq_body]
    unfold classifyBody
    rw [if_pos (Or.inr hq)]
  · intro q hq hsel
    have h1 : ¬(q = [] ∨ q.length < 5) := by
      rintro (rfl | hlt)
      · simp at hq
      · omega
    rw [validate_sql_eq_body]
    unfold classifyBody
    rw [if_neg h1, if_pos (by simp [hsel])]
  · intro q hq hsel hcount
    have h1 : ¬(q = [] ∨ q.length < 5) := by
      rintro (rfl | hlt)
      · simp at hq
      · omega
    rw [validate_sql_eq_body]
    unfold classifyBody
    rw [if_neg h1, if_neg (not_not_intro hsel), if_pos hcount]

/-- C4 witness: one concrete input per rule. -/
theorem claim_C4_witness :
    validate_sql "ab".data = .rejected msgTooShort ∧
    validate_sql "DROP TABLE x".data = .rejected msgOnlySelect ∧
    validate_sql "select (a from t".data = .rejected msgUnbalanced :=
  ⟨claim_C4.1 _ (by decide), claim_C4.2.1 _ (by decide) (by decide),
   claim_C4.2.2 _ (by decide) (by decide) (by decide)⟩

/-- C5: `"select a from t where id in (1,2) and id = 1"` is Accepted with
`operation = in_clause` (the IN-clause check of line 142 precedes the
comparison check of line 162, and no common-error rejection fires). -/
theorem claim_C5 :
    validate_sql "select a from t where id in (1,2) and id = 1".data =
      .accepted (inInfo ["a".data] "t".data "id".data ["1".data, "2".data]) := by decide

/-- C6: when every rejection check passes and none of the four predicate
patterns matches the semicolon-truncated lowered text, the result is the
fall-through acceptance: no `operation` key (modelled `none`),
`query_type = "select"`, a full-table projection. -/
theorem claim_C6 (q : List Char)
    (h1 : ¬(q = [] ∨ q.length < 5))
    (h2 : "select".data.isPrefixOf (pyStrip (pyLower q)) = true)
    (h3 : q.count '(' = q.count ')')
    (h4 : reTest structToks (pyLower q) = true)
    (h5 : findCommonError (pyLower q) = none)
    (hn : reSearch nullToks (pyLower (pyStrip (takeBeforeSemi q))) = none)
    (hnn : reSearch notNullToks (pyLower (pyStrip (takeBeforeSemi q))) = none)
    (hin : reSearch inToks (pyLower (pyStrip (takeBeforeSemi q))) = none)
    (hcmp : reSearch cmpToks (pyLower (pyStrip (takeBeforeSemi q))) = none) :
    validate_sql q = .accepted
      (plainInfo (extractSelectedColumns (pyLower q)) (extractTable (pyLower q))) := by
  rw [validate_sql_pred h1 h2 h3 h4 h5]
  unfold predPart
  rw [hn, hnn, hin, hcmp]

/-- C6 witness: `"select x from tbl"` matches no predicate pattern. -/
theorem claim_C6_witness :
    validate_sql "select x from tbl".data =
      .accepted (plainInfo ["x".data] "tbl".data) := by
  have h := claim_C6 "select x from tbl".data (by decide) (by decide) (by decide)
    (by decide) (by decide) (by decide) (by decide) (by decide) (by decide)
  rw [h]
  decide

/-- C7 (amended): for every accepted input, `selectedColumns` is the
comma-split, individually trimmed token list of the group captured by
`select\s+(.*?)\s+from` on the lowered query — except that the whole
sequence is replaced by `["all columns"]` exactly when `"*"` is AMONG the
trimmed tokens (not only when it is the sole token). -/
theorem claim_C7 (q : List Char) (i : AcceptedInfo)
    (h : validate_sql q = .accepted i) :
    ∃ caps, reSearch selColsToks (pyLower q) = some caps ∧
      i.selected_columns =
        (if ((splitChar ',' (getCap caps 1)).map pyStrip).contains ['*']
          then ["all columns".data]
          else (splitChar ',' (getCap caps 1)).map pyStrip) := by
  obtain ⟨hpred, hstruct⟩ := accepted_eq_predPart h
  obtain ⟨caps0, hcaps0⟩ := Option.isSome_iff_exists.mp hstruct
  obtain ⟨caps, hcaps⟩ := Option.isSome_iff_exists.mp (selCols_of_struct hcaps0)
  refine ⟨caps, hcaps, ?_⟩
  rw [(predPart_fields hpred).1]
  unfold extractSelectedColumns
  rw [hcaps]

/-- C7 witness: `"select a, * from t"` instantiates the amended claim. -/
theorem claim_C7_witness :
    selColsOf (validate_sql "select a, * from t".data) = some ["all columns".data] := by
  have hval : validate_sql "select a, * from t".data =
      .accepted (plainInfo ["all columns".data] "t".data) := by decide
  obtain ⟨caps, -, -⟩ := claim_C7 _ _ hval
  rw [hval]
  rfl

/-- C7 counterexample: on `"select a, * from t"` the claim predicts the full
token list `["a", "*"]`, but the code replaces any token list containing
`"*"` with `["all columns"]`. -/
theorem claim_C7_cex :
    selColsOf (validate_sql "select a, * from t".data) = some ["all columns".data] ∧
    ¬ selColsOf (validate_sql "select a, * from t".data) = some ["a".data, "*".data] := by
  exact ⟨by decide, by decide⟩

/-- C8 (amended): for inputs passing the first three checks, the structural
rejection does not fire whenever the lowered text decomposes as
`select`, whitespace, non-newline content, whitespace, `from`, whitespace,
non-newline content: newlines are allowed only inside the whitespace runs
(the line-77 regex is compiled without `re.DOTALL`, so its `.` segments
cannot span a newline). -/
theorem claim_C8 (q : List Char)
    (h1 : ¬(q = [] ∨ q.length < 5))
    (h2 : "select".data.isPrefixOf (pyStrip (pyLower q)) = true)
    (h3 : q.count '(' = q.count ')')
    (hsc : StructContent (pyLower q)) :
    ¬ validate_sql q = .rejected msgStructure := by
  have h4 : reTest structToks (pyLower q) = true := structContent_reTest hsc
  intro hcon
  rw [validate_sql_eq_body] at hcon
  unfold classifyBody at hcon
  rw [if_neg h1, if_neg (not_not_intro h2), if_neg (not_not_intro h3),
    if_neg (not_not_intro h4)] at hcon
  cases hfc : findCommonError (pyLower q) with
  | some m =>
    rw [hfc] at hcon
    injection hcon with hm
    rcases findCommonError_mem hfc with rfl | rfl | rfl | rfl | rfl | rfl | rfl <;>
      exact absurd hm (by decide)
  | none =>
    rw [hfc] at hcon
    obtain ⟨i, hi⟩ := predPart_is_accepted (extractSelectedColumns (pyLower q))
      (extractTable (pyLower q)) (pyLower (pyStrip (takeBeforeSemi q)))
    rw [hi] at hcon
    cases hcon

/-- C8 witness: `"select x from t"` satisfies the amended hypothesis. -/
theorem claim_C8_witness :
    ¬ validate_sql "select x from t".data = .rejected msgStructure :=
  claim_C8 "select x from t".data (by decide) (by decide) (by decide)
    ⟨[], [' '], "x".data, [' '], [' '], "t".data, [],
      by decide, by decide, by decide, by decide, by decide, by decide, by decide,
      by decide, by decide, by decide, by decide⟩

/-- C8 counterexample: `"select a\nb from t"` satisfies the claim's
hypothesis (any characters, including newlines, between the keywords) and
passes the first three checks, yet the structural rejection fires: `.+`
does not cross the newline inside `a\nb`. -/
theorem claim_C8_cex :
    ¬("select a\nb from t".data = ([] : List Char) ∨
        "select a\nb from t".data.length < 5) ∧
    "select".data.isPrefixOf (pyStrip (pyLower "select a\nb from t".data)) = true ∧
    "select a\nb from t".data.count '(' = "select a\nb from t".data.count ')' ∧
    StructContentAny (pyLower "select a\nb from t".data) ∧
    validate_sql "select a\nb from t".data = .rejected msgStructure := by
  refine ⟨by decide, by decide, by decide, ?_, by decide⟩
  exact ⟨[], [' '], "a\nb".data, [' '], [' '], "t".data, [],
    by decide, by decide, by decide, by decide, by decide, by decide, by decide, by decide⟩

/-- C9: classification never escapes as an exception — when the `try`-body
computation returns a result, `validate_sql` returns exactly that data
result, and were the body ever to fault, the handler of lines 189-191 would
return Rejected `"Error: " + fault`.  (In this embedding no operation of
the body can fault, so the second branch is vacuous.) -/
theorem claim_C9 :
    (∀ (q : List Char) (r : SqlResult), classifyExc q = .ok r → validate_sql q = r) ∧
    (∀ (q e : List Char), classifyExc q = .error e →
      validate_sql q = .rejected ("Error: ".data ++ e)) := by
  constructor
  · intro q r h
    unfold validate_sql
    rw [h]
  · intro q e h
    unfold validate_sql
    rw [h]

/-- C9 witness: a concrete run through the `ok` branch. -/
theorem claim_C9_witness : validate_sql "sel ".data = .rejected msgTooShort :=
  claim_C9.1 "sel ".data (.rejected msgTooShort) rfl

/-- C10: every extracted field of an accepted result — the selected-column
tokens, the table name, and the predicate's column, operator, value and
IN-list values — contains no ASCII upper-case letter, because each is taken
from the lower-cased query text (or is a lower-case literal). -/
theorem claim_C10 (q : List Char) (i : AcceptedInfo)
    (h : validate_sql q = .accepted i) :
    (∀ col ∈ i.selected_columns, noUpper col) ∧ noUpper i.table ∧
    (∀ w, i.column = some w → noUpper w) ∧
    (∀ w, i.operator = some w → noUpper w) ∧
    (∀ w, i.value = some w → noUpper w) ∧
    (∀ vs, i.values = some vs → ∀ v ∈ vs, noUpper v) := by
  obtain ⟨hpred, -⟩ := accepted_eq_predPart h
  have hscU : ∀ col ∈ extractSelectedColumns (pyLower q), noUpper col := by
    intro col hcol
    cases hres : reSearch selColsToks (pyLower q) with
    | none =>
      simp only [extractSelectedColumns, hres] at hcol
      cases hcol
    | some caps =>
      simp only [extractSelectedColumns, hres] at hcol
      split at hcol
      · rcases List.mem_singleton.mp hcol with rfl
        unfold noUpper
        decide
      · rw [List.mem_map] at hcol
        obtain ⟨piece, hpiece, rfl⟩ := hcol
        intro c hc
        have hp1 := pyStrip_subset c hc
        have hp2 := splitChar_subset piece hpiece c hp1
        have hp3 := getCap_subset (reSearch_caps_subset hres) 1 c hp2
        exact noUpper_pyLower q c hp3
  have htnU : noUpper (extractTable (pyLower q)) := by
    intro c hc
    cases hres : reSearch tableToks (pyLower q) with
    | none =>
      simp only [extractTable, hres] at hc
      have hu : noUpper "unknown".data := by unfold noUpper; decide
      exact hu c hc
    | some caps =>
      simp only [extractTable, hres] at hc
      exact noUpper_pyLower q c (getCap_subset (reSearch_caps_subset hres) 1 c hc)
  have hclU : noUpper (pyLower (pyStrip (takeBeforeSemi q))) := noUpper_pyLower _
  unfold predPart at hpred
  split at hpred
  · rename_i caps heq
    injection hpred with hpred
    subst hpred
    refine ⟨hscU, htnU, ?_, ?_, ?_, ?_⟩
    · intro w hw
      injection hw with hw
      subst hw
      exact noUpper_subset (getCap_subset (reSearch_caps_subset heq) 1) hclU
    · intro w hw; cases hw
    · intro w hw; cases hw
    · intro vs hvs; cases hvs
  · split at hpred
    · rename_i caps heq
      injection hpred with hpred
      subst hpred
      refine ⟨hscU, htnU, ?_, ?_, ?_, ?_⟩
      · intro w hw
        injection hw with hw
        subst hw
        exact noUpper_subset (getCap_subset (reSearch_caps_subset heq) 1) hclU
      · intro w hw; cases hw
      · intro w hw; cases hw
      · intro vs hvs; cases hvs
    · split at hpred
      · rename_i caps heq
        injection hpred with hpred
        subst hpred
        refine ⟨hscU, htnU, ?_, ?_, ?_, ?_⟩
        · intro w hw
          injection hw with hw
          subst hw
          exact noUpper_subset (getCap_subset (reSearch_caps_subset heq) 1) hclU
        · intro w hw; cases hw
        · intro w hw; cases hw
        · intro vs hvs
          injection hvs with hvs
          subst hvs
          intro v hv
          have hv1 := parseInValues_subset v hv
          have hv2 := getCap_subset (reSearch_caps_subset heq) 2
          exact noUpper_subset (fun c hc => hv2 c (hv1 c hc)) hclU
      · split at hpred
        · rename_i caps heq
          injection hpred with hpred
          subst hpred
          refine ⟨hscU, htnU, ?_, ?_, ?_, ?_⟩
          · intro w hw
            injection hw with hw
            subst hw
            exact noUpper_subset (getCap_subset (reSearch_caps_subset heq) 1) hclU
          · intro w hw
            injection hw with hw
            subst hw
            exact noUpper_subset (getCap_subset (reSearch_caps_subset heq) 2) hclU
          · intro w hw
            injection hw with hw
            subst hw
            have hsub := getCap_subset (reSearch_caps_subset heq) 3
            exact noUpper_subset (fun c hc => hsub c (stripQuotes_subset c hc)) hclU
          · intro vs hvs; cases hvs
        · injection hpred with hpred
          subst hpred
          refine ⟨hscU, htnU, ?_, ?_, ?_, ?_⟩
          · intro w hw; cases hw
          · intro w hw; cases hw
          · intro w hw; cases hw
          · intro vs hvs; cases hvs

/-- C10 witness: `"SELECT Name FROM Users"` yields table `"users"` and
selected columns `["name"]`, and the theorem applies to it. -/
theorem claim_C10_witness :
    validate_sql "SELECT Name FROM Users".data =
      .accepted (plainInfo ["name".data] "users".data) ∧
    noUpper "users".data := by
  constructor
  · decide
  · have h := claim_C10 "SELECT Name FROM Users".data
      (plainInfo ["name".data] "users".data) (by decide)
    exact h.2.1

end SqlVal
